import Mathlib

/-!
Verification development for the license-service core: a shallow embedding of
the license validator (internal/service/license_service.go, ValidateLicense),
the expiration reconciler (CheckAndExpireLicenses and the periodic
ProcessTask loop in internal/tasks/expire_license_handler.go), the paginated
repository listing (internal/storage/postgres/license_repository.go), the
status-update primitive (UpdateStatus), the API-key authentication middleware
(internal/handler/middleware/apikey_auth.go with the postgres FindByPrefix
and Create of the API-key repository), together with theorems checking the
specification claims against these definitions.

Machine integers are modelled as Nat, timestamps as Nat (UTC instants),
UUIDs as Nat ids, SQL NULLable columns as Option, and JSON metadata blobs by
their parse behaviour (absent, unparsable, or an object whose values are
either JSON strings or opaque non-string values).  The SHA-256 hex digest of
the credential header is abstracted as a function parameter: none of the
verified properties depend on the concrete digest.
-/

/-- License lifecycle states, from internal/domain/license/model.go. -/
inductive LicenseStatus where
  | pending
  | active
  | inactive
  | expired
  | revoked
deriving DecidableEq, Repr

/-- The string the Go code obtains by converting a LicenseStatus value. -/
def statusString : LicenseStatus → String
  | .pending => "pending"
  | .active => "active"
  | .inactive => "inactive"
  | .expired => "expired"
  | .revoked => "revoked"

/-- A JSON value as the validator observes it: the code only ever asks
whether a field is a string (type assertion .(string)) or passes the value
through opaquely (features and limits), so non-string values are abstracted
to an opaque tag. -/
inductive JVal where
  | str (s : String)
  | other (tag : Nat)
deriving DecidableEq, Repr

/-- A raw metadata blob (json.RawMessage), by its parse behaviour into
map[string]interface: absent (nil slice), bad (unmarshal fails, covering
invalid JSON and non-object JSON), or a parsed object. -/
inductive RawMeta where
  | absent
  | bad
  | obj (fields : List (String × JVal))
deriving DecidableEq, Repr

/-- Unmarshalling a raw blob into a map, as in ValidateLicense:
agentMetaValid and licenseMetaValid are the isSome of this. -/
def parseObj : RawMeta → Option (List (String × JVal))
  | .obj fields => some fields
  | _ => none

/-- Field lookup in a parsed metadata object (Go map indexing). -/
def lookupField (fields : List (String × JVal)) (k : String) : Option JVal :=
  match fields.find? (fun kv => kv.1 == k) with
  | some kv => some kv.2
  | none => none

/-- The value of field k when it is present, a string, and non-empty: the
combination the validator tests with the .(string) assertion followed by a
comparison against the empty string. -/
def nonEmptyStrField (fields : List (String × JVal)) (k : String) : Option String :=
  match lookupField fields k with
  | some (.str s) => if s = "" then none else some s
  | _ => none

/-- One license row, from internal/domain/license/model.go.  Nullable SQL
columns are Option; timestamps are Nat instants. -/
structure License where
  id : Nat
  licenseKey : String
  status : LicenseStatus
  licType : String
  customerName : Option String
  customerEmail : Option String
  productName : String
  metadata : RawMeta
  issuedAt : Option Nat
  expiresAt : Option Nat
  createdAt : Nat
  updatedAt : Nat
deriving DecidableEq, Repr

/-- The expiry test of ValidateLicense and of both reconciliation sweeps:
lic.ExpiresAt.Valid and now strictly after the expiry instant. -/
def expiredNow (expiresAt : Option Nat) (now : Nat) : Bool :=
  match expiresAt with
  | some t => now > t
  | none => false

/-- The validation request body (handler/dto ValidateLicenseRequest):
license key, product name, and the optional agent metadata blob. -/
structure ValidateReq where
  licenseKey : String
  productName : String
  metadata : RawMeta
deriving DecidableEq, Repr

/-- The ephemeral validation result assembled by ValidateLicense. -/
structure ValidationResult where
  isValid : Bool
  reason : String
  license : Option License
  responseData : Option (List (String × JVal))
deriving DecidableEq, Repr

/-- Outcome of the repository FindByKey call as seen by the validator:
either a row, or a not-found error (ierr.ErrNotFound / pgx.ErrNoRows), or
any other infrastructure failure. -/
inductive DBErr where
  | notFound
  | infra
deriving DecidableEq, Repr

/-- One binding check of ValidateLicense for a given reserved key: none
means the check passes (no binding, or the agent matched it), some r means
the check fails with reason r. -/
def bindingCheck (lm : List (String × JVal)) (agentMeta : Option (List (String × JVal)))
    (k reqReason misReason : String) : Option String :=
  match nonEmptyStrField lm k with
  | none => none
  | some d =>
    match agentMeta with
    | none => some reqReason
    | some am =>
      match nonEmptyStrField am k with
      | none => some reqReason
      | some a => if a = d then none else some misReason

/-- The success-path result of ValidateLicense: reason valid, and
response data assembled only from the whitelisted keys features and limits
of the parsed license metadata (omitted when neither is present or the
metadata did not parse). -/
def successResult (lic : License) : ValidationResult :=
  match parseObj lic.metadata with
  | none => { isValid := true, reason := "valid", license := some lic, responseData := none }
  | some lm =>
    let featPart := match lookupField lm "features" with
      | some v => [("features", v)]
      | none => []
    let limPart := match lookupField lm "limits" with
      | some v => [("limits", v)]
      | none => []
    let allowed := featPart ++ limPart
    if allowed = [] then
      { isValid := true, reason := "valid", license := some lic, responseData := none }
    else
      { isValid := true, reason := "valid", license := some lic, responseData := some allowed }

/-- The binding section and success path of ValidateLicense, entered once
the product, status and expiry checks have passed. -/
def bindingsAndSuccess (lic : License) (req : ValidateReq) : ValidationResult :=
  let agentMeta := parseObj req.metadata
  match parseObj lic.metadata with
  | none => successResult lic
  | some lm =>
    match bindingCheck lm agentMeta "device_id" "device_id_required" "device_id_mismatch" with
    | some r => { isValid := false, reason := r, license := some lic, responseData := none }
    | none =>
      match bindingCheck lm agentMeta "user_id" "user_id_required" "user_id_mismatch" with
      | some r => { isValid := false, reason := r, license := some lic, responseData := none }
      | none => successResult lic

/-- ValidateLicense (internal/service/license_service.go), parameterised by
the outcome of the FindByKey lookup.  An infra failure of the lookup
propagates as an error (modelled as Except.error); a not-found key is a
successful business result with reason not_found.  The detached background
writes (lazy expiration, metadata enrichment) do not affect the returned
value and are not part of this function. -/
def validateLicenseWith (lookup : Except DBErr License) (req : ValidateReq) (now : Nat) :
    Except Unit ValidationResult :=
  match lookup with
  | .error .infra => .error ()
  | .error .notFound =>
    .ok { isValid := false, reason := "not_found", license := none, responseData := none }
  | .ok lic =>
    if lic.productName ≠ req.productName then
      .ok { isValid := false, reason := "product_mismatch", license := some lic, responseData := none }
    else if lic.status ≠ .active then
      .ok { isValid := false,
            reason := if lic.status = .expired then "expired" else statusString lic.status,
            license := some lic, responseData := none }
    else if expiredNow lic.expiresAt now then
      .ok { isValid := false, reason := "expired", license := some lic, responseData := none }
    else
      .ok (bindingsAndSuccess lic req)

/-- The repository FindByKey over a pure in-memory store: the row whose
license_key matches, else the not-found error. -/
def findByKeyStore (store : List License) (key : String) : Except DBErr License :=
  match store.find? (fun l => l.licenseKey == key) with
  | some l => .ok l
  | none => .error .notFound

/-- ValidateLicense run against a pure store. -/
def validateLicense (store : List License) (req : ValidateReq) (now : Nat) :
    Except Unit ValidationResult :=
  validateLicenseWith (findByKeyStore store req.licenseKey) req now

/-- Whether a validation call returned a business result with is_valid true. -/
def isValidB : Except Unit ValidationResult → Bool
  | .ok r => r.isValid
  | .error _ => false

/-- The reason of a successful (non-error) validation call. -/
def reasonOf : Except Unit ValidationResult → Option String
  | .ok r => some r.reason
  | .error _ => none

/-- The binding a license metadata blob carries for key k: the non-empty
string value of field k of the parsed object, when there is one. -/
def licBinding (m : RawMeta) (k : String) : Option String :=
  match parseObj m with
  | none => none
  | some fields => nonEmptyStrField fields k

/-- Spec-side reading of the binding condition of claim C1: any binding
present in the license metadata must be matched exactly by the agent
metadata. -/
def specBindingSatisfied (licMeta agentMeta : RawMeta) (k : String) : Bool :=
  match licBinding licMeta k with
  | none => true
  | some d => licBinding agentMeta k == some d

/-- Sortable columns that buildOrderBy of the license repository accepts. -/
inductive SortCol where
  | idCol
  | createdAt
  | expiresAt
  | issuedAt
  | updatedAt
  | customerName
  | customerEmail
  | productName
  | typeCol
  | statusCol
deriving DecidableEq, Repr

/-- A sort key value as the database compares it: an integer instant, a
string, or SQL NULL. -/
inductive ColVal where
  | nat (n : Nat)
  | str (s : String)
  | null
deriving DecidableEq, Repr

/-- The ORDER BY clause the repository builds: column, direction, and the
placement of NULLs. -/
structure OrderSpec where
  col : SortCol
  desc : Bool
  nullsFirst : Bool
deriving DecidableEq, Repr

/-- ASCII lowercase, as strings.ToLower behaves on the inputs in use. -/
def strToLower (s : String) : String := String.mk (s.data.map Char.toLower)

/-- ASCII uppercase, as strings.ToUpper behaves on the inputs in use. -/
def strToUpper (s : String) : String := String.mk (s.data.map Char.toUpper)

/-- The allowedSortBy whitelist of buildOrderBy (license_repository.go),
including the id entry the startup sweep relies on. -/
def allowedSortCols : List (String × SortCol) :=
  [("id", .idCol),
   ("created_at", .createdAt), ("expires_at", .expiresAt), ("issued_at", .issuedAt),
   ("updated_at", .updatedAt), ("customer_name", .customerName),
   ("customer_email", .customerEmail), ("product_name", .productName),
   ("type", .typeCol), ("status", .statusCol)]

/-- Columns for which buildOrderBy writes an explicit NULLS placement. -/
def isNullableCol : SortCol → Bool
  | .expiresAt => true
  | .issuedAt => true
  | .customerName => true
  | .customerEmail => true
  | _ => false

/-- buildOrderBy of the license repository: validates the sort field
against the whitelist and the direction against ASC or DESC, and fixes the
NULLS placement (explicit NULLS FIRST for ascending nullable columns,
NULLS LAST for descending ones, the engine defaults otherwise).  none is
the error case, on which List falls back to created_at DESC. -/
def buildOrderBy (sortBy sortOrder : String) : Option OrderSpec :=
  match allowedSortCols.find? (fun kv => kv.1 == strToLower sortBy) with
  | none => none
  | some kv =>
    let ord := strToUpper sortOrder
    if ord = "ASC" then
      some { col := kv.2, desc := false, nullsFirst := if isNullableCol kv.2 then true else false }
    else if ord = "DESC" then
      some { col := kv.2, desc := true, nullsFirst := if isNullableCol kv.2 then false else true }
    else none

/-- The fallback ordering used by List when buildOrderBy rejects the sort
parameters: ORDER BY created_at DESC. -/
def fallbackOrder : OrderSpec := { col := .createdAt, desc := true, nullsFirst := true }

/-- The ORDER BY id ASC clause that buildOrderBy produces for the startup
sweep's sort parameters (id is whitelisted and not nullable). -/
def idAscOrder : OrderSpec := { col := .idCol, desc := false, nullsFirst := false }

/-- The sort key of a row for a given column. -/
def colVal (c : SortCol) (l : License) : ColVal :=
  match c with
  | .idCol => .nat l.id
  | .createdAt => .nat l.createdAt
  | .expiresAt => match l.expiresAt with
    | some t => .nat t
    | none => .null
  | .issuedAt => match l.issuedAt with
    | some t => .nat t
    | none => .null
  | .updatedAt => .nat l.updatedAt
  | .customerName => match l.customerName with
    | some s => .str s
    | none => .null
  | .customerEmail => match l.customerEmail with
    | some s => .str s
    | none => .null
  | .productName => .str l.productName
  | .typeCol => .str l.licType
  | .statusCol => .str (statusString l.status)

/-- Lexicographic comparison of character lists (byte order on the ASCII
data in use), the order the database applies to text columns. -/
def charsLE : List Char → List Char → Bool
  | [], _ => true
  | _ :: _, [] => false
  | a :: as, b :: bs => if a = b then charsLE as bs else decide (a.toNat < b.toNat)

/-- String comparison for ORDER BY on text columns. -/
def strLE (s t : String) : Bool := charsLE s.data t.data

/-- Row comparison realising one ORDER BY clause. -/
def rowLE (o : OrderSpec) (a b : License) : Bool :=
  match colVal o.col a, colVal o.col b with
  | .null, .null => true
  | .null, _ => o.nullsFirst
  | _, .null => !o.nullsFirst
  | .nat x, .nat y => if o.desc then decide (y ≤ x) else decide (x ≤ y)
  | .str x, .str y => if o.desc then strLE y x else strLE x y
  | .nat _, .str _ => true
  | .str _, .nat _ => true

/-- Insertion into a list sorted by le. -/
def insertLE (le : License → License → Bool) (x : License) : List License → List License
  | [] => [x]
  | y :: ys => if le x y then x :: y :: ys else y :: insertLE le x ys

/-- Stable insertion sort by le; the deterministic refinement of the
database ORDER BY used by this embedding. -/
def isortLE (le : License → License → Bool) : List License → List License
  | [] => []
  | x :: xs => insertLE le x (isortLE le xs)

/-- Rows in the order the repository returns them for one ORDER BY. -/
def sortRows (o : OrderSpec) (rows : List License) : List License :=
  isortLE (rowLE o) rows

/-- Filter and pagination parameters of the repository List
(internal/domain/license/repository.go ListParams). -/
structure ListParams where
  status : Option LicenseStatus
  customerEmail : Option String
  productName : Option String
  licType : Option String
  limit : Nat
  offset : Nat
  sortBy : String
  sortOrder : String
deriving DecidableEq, Repr

/-- The WHERE clause of List: conjunction of the optional equality
filters.  A NULL column never equals a filter value. -/
def matchesParams (p : ListParams) (l : License) : Bool :=
  (match p.status with
   | some s => l.status == s
   | none => true)
  && (match p.customerEmail with
      | some e => match l.customerEmail with
        | some v => v == e
        | none => false
      | none => true)
  && (match p.productName with
      | some n => l.productName == n
      | none => true)
  && (match p.licType with
      | some t => l.licType == t
      | none => true)

/-- The repository List: count the filtered rows, return early when the
count is zero, otherwise sort by the requested order (falling back to
created_at DESC when buildOrderBy rejects it) and apply OFFSET and LIMIT.
Returns the page and the total filtered count. -/
def listLicenses (store : List License) (p : ListParams) : List License × Nat :=
  let filtered := store.filter (matchesParams p)
  let total := filtered.length
  if total = 0 then ([], 0)
  else
    let ord := (buildOrderBy p.sortBy p.sortOrder).getD fallbackOrder
    (((sortRows ord filtered).drop p.offset).take p.limit, total)

/-- Error taxonomy sentinels of internal/ierr/errors.go. -/
inductive Sentinel where
  | validation
  | unauthorized
  | forbidden
  | updateFailed
  | notFound
  | conflict
  | internalServer
deriving DecidableEq, Repr

/-- A Go error value as the handlers observe it: its message and the ierr
sentinel it wraps, if any; errors.Is against a sentinel succeeds exactly
when the error wraps it. -/
structure GoError where
  msg : String
  wrapped : Option Sentinel
deriving DecidableEq, Repr

/-- errors.Is(err, sentinel) for the errors of this embedding. -/
def errorsIs (e : GoError) (s : Sentinel) : Bool := e.wrapped == some s

/-- UpdateStatus of the license repository: UPDATE licenses SET status
WHERE id.  A zero affected-row count yields ierr.ErrNotFound; otherwise the
single matching row now carries the new status. -/
def updateStatusE (store : List License) (id : Nat) (st : LicenseStatus) :
    Except GoError (List License) :=
  if store.any (fun l => l.id == id) then
    .ok (store.map (fun l => if l.id == id then { l with status := st } else l))
  else
    .error { msg := "resource not found", wrapped := some .notFound }

/-- Accumulated outcome of one reconciliation sweep: the number of
successful expirations, the final store, and the licenses of each fetched
page in the order the sweep iterated over them. -/
structure SweepOut where
  updated : Nat
  store : List License
  trace : List License
deriving DecidableEq, Repr

/-- The per-page body shared by both sweeps: for every fetched row whose
expires_at has passed, issue UpdateStatus to expired; an update failure is
logged and skipped, a success increments the counter. -/
def expireBatch (store : List License) (page : List License) (now : Nat) (count : Nat) :
    List License × Nat :=
  match page with
  | [] => (store, count)
  | lic :: rest =>
    if expiredNow lic.expiresAt now then
      match updateStatusE store lic.id .expired with
      | .ok s2 => expireBatch s2 rest now (count + 1)
      | .error _ => expireBatch store rest now count
    else expireBatch store rest now count

/-- The ListParams of the startup sweep CheckAndExpireLicenses: status
active, page size 500, sort by id ascending (a field buildOrderBy does not
accept). -/
def startupParams (offset : Nat) : ListParams :=
  { status := some .active, customerEmail := none, productName := none, licType := none,
    limit := 500, offset := offset, sortBy := "id", sortOrder := "ASC" }

/-- The paging loop of CheckAndExpireLicenses, with explicit fuel (the
loop terminates because the offset grows by the page size each turn). -/
def startupGo : Nat → List License → Nat → Nat → Nat → List License → SweepOut
  | 0, store, _, _, count, trace => { updated := count, store := store, trace := trace }
  | fuel + 1, store, now, offset, count, trace =>
    let pageTotal := listLicenses store (startupParams offset)
    let page := pageTotal.1
    if page.isEmpty then { updated := count, store := store, trace := trace }
    else
      let upd := expireBatch store page now count
      if page.length < 500 then
        { updated := upd.2, store := upd.1, trace := trace ++ page }
      else
        startupGo fuel upd.1 now (offset + 500) upd.2 (trace ++ page)

/-- CheckAndExpireLicenses of internal/service/license_service.go: the
startup reconciliation sweep over a pure store. -/
def checkAndExpireLicenses (store : List License) (now : Nat) : SweepOut :=
  startupGo (store.length + 1) store now 0 0 []

/-- The ListParams of the periodic sweep ProcessTask: status active, page
size 1000, sort by expires_at ascending. -/
def periodicParams (offset : Nat) : ListParams :=
  { status := some .active, customerEmail := none, productName := none, licType := none,
    limit := 1000, offset := offset, sortBy := "expires_at", sortOrder := "ASC" }

/-- The paging loop of the periodic ProcessTask
(internal/tasks/expire_license_handler.go), including its defensive break
when the advanced offset exceeds the last reported total. -/
def periodicGo : Nat → List License → Nat → Nat → Nat → List License → SweepOut
  | 0, store, _, _, count, trace => { updated := count, store := store, trace := trace }
  | fuel + 1, store, now, offset, count, trace =>
    let pageTotal := listLicenses store (periodicParams offset)
    let page := pageTotal.1
    let total := pageTotal.2
    if page.isEmpty then { updated := count, store := store, trace := trace }
    else
      let upd := expireBatch store page now count
      if page.length < 1000 then
        { updated := upd.2, store := upd.1, trace := trace ++ page }
      else
        if offset + 1000 > total ∧ total > 0 then
          { updated := upd.2, store := upd.1, trace := trace ++ page }
        else
          periodicGo fuel upd.1 now (offset + 1000) upd.2 (trace ++ page)

/-- The expiration pass of the periodic task handler ProcessTask, over a
pure store. -/
def processExpireTask (store : List License) (now : Nat) : SweepOut :=
  periodicGo (store.length + 1) store now 0 0 []

/-- Whether a row is picked up by the status = active filter of the sweeps. -/
def activeB (l : License) : Bool := l.status == .active

/-- One API-key record, from internal/domain/apikey/model.go (the prefix
column is named pfx here).  The full secret is never stored, only its hash. -/
structure APIKey where
  id : Nat
  keyHash : String
  pfx : String
  description : String
  isEnabled : Bool
deriving DecidableEq, Repr

/-- Splitting off the first occurrence of a separator character. -/
def splitOnce : Char → List Char → Option (List Char × List Char)
  | _, [] => none
  | sep, c :: rest =>
    if c = sep then some ([], rest)
    else
      match splitOnce sep rest with
      | none => none
      | some pq => some (c :: pq.1, pq.2)

/-- Split into at most n parts around a separator character. -/
def splitBounded : Nat → Char → List Char → List (List Char)
  | 0, _, cs => [cs]
  | k + 1, sep, cs =>
    match splitOnce sep cs with
    | none => [cs]
    | some pq => pq.1 :: splitBounded k sep pq.2

/-- strings.SplitN(s, sep, n) for a single-character separator and n > 0:
at most n parts, the last one keeping any further separators. -/
def goSplitN (s : String) (sep : Char) (n : Nat) : List String :=
  match n with
  | 0 => []
  | k + 1 => (splitBounded k sep s.data).map (fun cs => String.mk cs)

/-- FindByPrefix of the API-key repository: the row whose prefix matches
AND is_enabled = TRUE; a disabled or absent prefix is the same not-found
outcome. -/
def findByPfx (store : List APIKey) (p : String) : Option APIKey :=
  store.find? (fun k => k.pfx == p && k.isEnabled)

/-- The externally observable outcome of APIKeyAuthMiddleware: an aborted
request with an HTTP status and error body, or a pass-through with the
authenticated key identity. -/
inductive AuthOutcome where
  | abort (status : Nat) (msg : String)
  | success (keyId : Nat)
deriving DecidableEq, Repr

/-- APIKeyAuthMiddleware (internal/handler/middleware/apikey_auth.go),
parameterised by the hash function applied to the full header (the code
uses the SHA-256 hex digest; nothing here depends on which function it
is).  Missing header: 401.  A header that does not split into the scheme
tag lm plus two further segments: 401.  Prefix unknown or disabled, or
stored hash different from the digest of the presented header: the same
403 body in both cases.  The constant-time comparison of the two digests
is equality.  The detached last-used update does not affect the outcome. -/
def authenticate (H : String → String) (store : List APIKey) (header : String) : AuthOutcome :=
  if header = "" then .abort 401 "API key required"
  else
    match goSplitN header '_' 3 with
    | [tag, p, _] =>
      if tag ≠ "lm" then .abort 401 "Invalid API key format"
      else
        match findByPfx store p with
        | none => .abort 403 "Invalid or disabled API key"
        | some k =>
          if H header = k.keyHash then .success k.id
          else .abort 403 "Invalid or disabled API key"
    | _ => .abort 401 "Invalid API key format"

/-- Create of the API-key repository (INSERT with RETURNING id): a unique
violation of the prefix or hash constraint (pg error 23505) is reported as
a fresh constraint-violation error that wraps no ierr sentinel; otherwise
the row is appended with a fresh id. -/
def apiKeyCreate (store : List APIKey) (k : APIKey) : Except GoError (Nat × List APIKey) :=
  if store.any (fun x => x.pfx == k.pfx) then
    .error { msg := "api key constraint violation (api_keys_prefix_key)", wrapped := none }
  else if store.any (fun x => x.keyHash == k.keyHash) then
    .error { msg := "api key constraint violation (api_keys_key_hash_key)", wrapped := none }
  else
    let newId := (store.map (fun x => x.id)).foldr Nat.max 0 + 1
    .ok (newId, store ++ [{ k with id := newId }])

/-- First defined element of a list of options. -/
def firstSome : List (Option String) → Option String
  | [] => none
  | o :: rest =>
    match o with
    | some a => some a
    | none => firstSome rest

/-- Spec-side status reason of claim C5: the status name, with expired
normalized to the literal expired. -/
def specStatusReason (st : LicenseStatus) : String :=
  if st = .expired then "expired" else statusString st

/-- Spec-side device-binding step of claim C5. -/
def specDeviceReason (licMeta agentMeta : RawMeta) : Option String :=
  match licBinding licMeta "device_id" with
  | none => none
  | some d =>
    match licBinding agentMeta "device_id" with
    | none => some "device_id_required"
    | some a => if a = d then none else some "device_id_mismatch"

/-- Spec-side user-binding step of claim C5. -/
def specUserReason (licMeta agentMeta : RawMeta) : Option String :=
  match licBinding licMeta "user_id" with
  | none => none
  | some d =>
    match licBinding agentMeta "user_id" with
    | none => some "user_id_required"
    | some a => if a = d then none else some "user_id_mismatch"

/-- Spec-side reason taxonomy of claim C5, written as the first failing
check of the claimed fixed order (product match, status, expiry, device
binding, user binding) with valid as the success reason. -/
def specChecksReason (L : License) (P : String) (M : RawMeta) (now : Nat) : String :=
  (firstSome
    [if L.productName = P then none else some "product_mismatch",
     if L.status = .active then none else some (specStatusReason L.status),
     match L.expiresAt with
     | some t => if t < now then some "expired" else none
     | none => none,
     specDeviceReason L.metadata M,
     specUserReason L.metadata M]).getD "valid"

/-- Spec-side reason of claim C5 including the lookup step: not_found for
an unknown key, no business reason on an infrastructure failure. -/
def specReasonC5 (lookup : Except DBErr License) (P : String) (M : RawMeta) (now : Nat) :
    Option String :=
  match lookup with
  | .error .infra => none
  | .error .notFound => some "not_found"
  | .ok L => some (specChecksReason L P M now)

/-- The reasons a business-level (non-error) rejection can carry. -/
def businessReasons : List String :=
  ["not_found", "product_mismatch", "pending", "inactive", "revoked", "expired",
   "device_id_required", "device_id_mismatch", "user_id_required", "user_id_mismatch"]

/-- Whether a validation call propagated an error instead of a result. -/
def isErrB : Except Unit ValidationResult → Bool
  | .error _ => true
  | .ok _ => false

/-- One active license of a 501-row population: rows 0 and 500 are overdue
(expires_at 0), the rest are perpetual; ids ascend with the index, so the
startup sweep (ORDER BY id ASC) scans the store in this order. -/
def mkLic (i : Nat) : License :=
  { id := i, licenseKey := "K", status := .active, licType := "t",
    customerName := none, customerEmail := none, productName := "p",
    metadata := .absent, issuedAt := none,
    expiresAt := if i = 0 ∨ i = 500 then some 0 else none,
    createdAt := 1000 - i, updatedAt := 0 }

/-- A store one row larger than the startup sweep page size of 500. -/
def storeC2 : List License := (List.range 501).map mkLic

/-- An active license with the smaller id but the later expiry. -/
def licA : License :=
  { id := 1, licenseKey := "KA", status := .active, licType := "t",
    customerName := none, customerEmail := none, productName := "p",
    metadata := .absent, issuedAt := none, expiresAt := some 10,
    createdAt := 1, updatedAt := 0 }

/-- An active license with the larger id but the earlier expiry. -/
def licB : License :=
  { id := 2, licenseKey := "KB", status := .active, licType := "t",
    customerName := none, customerEmail := none, productName := "p",
    metadata := .absent, issuedAt := none, expiresAt := some 5,
    createdAt := 2, updatedAt := 0 }

/-- A two-license store on which id-ascending and expires_at-ascending
orders disagree. -/
def storeC7 : List License := [licA, licB]

/-- A perpetual active license bound to no device or user. -/
def L1 : License :=
  { id := 10, licenseKey := "K1", status := .active, licType := "standard",
    customerName := none, customerEmail := none, productName := "Foo",
    metadata := .absent, issuedAt := none, expiresAt := none,
    createdAt := 0, updatedAt := 0 }

/-- An active license whose stored metadata blob does not parse. -/
def L10 : License :=
  { id := 11, licenseKey := "K10", status := .active, licType := "standard",
    customerName := none, customerEmail := none, productName := "Foo",
    metadata := .bad, issuedAt := none, expiresAt := none,
    createdAt := 0, updatedAt := 0 }

/-- A pending license used to exercise the status-update primitive. -/
def L9 : License :=
  { id := 9, licenseKey := "K9", status := .pending, licType := "standard",
    customerName := none, customerEmail := none, productName := "Foo",
    metadata := .absent, issuedAt := none, expiresAt := some 1,
    createdAt := 0, updatedAt := 0 }

/-- An enabled API key with lookup token ab and stored digest HH. -/
def K3key : APIKey :=
  { id := 7, keyHash := "HH", pfx := "ab", description := "", isEnabled := true }

/-- An enabled API key with lookup token cd and stored digest GG. -/
def K4key : APIKey :=
  { id := 8, keyHash := "GG", pfx := "cd", description := "", isEnabled := true }

/-- An existing API key whose lookup token a second create collides with. -/
def storedKey : APIKey :=
  { id := 1, keyHash := "hash-one", pfx := "pfx00001", description := "existing", isEnabled := true }

/-- A fresh API key carrying the same lookup token as storedKey. -/
def collidingKey : APIKey :=
  { id := 0, keyHash := "hash-two", pfx := "pfx00001", description := "second", isEnabled := true }
lemma expiredNow_false_iff (e : Option Nat) (now : Nat) :
    expiredNow e now = false ↔ (e = none ∨ ∃ t, e = some t ∧ now ≤ t) := by
  cases e with
  | none => simp [expiredNow]
  | some t => simp [expiredNow, Nat.not_lt]

lemma successResult_isValid (lic : License) : (successResult lic).isValid = true := by
  unfold successResult
  split
  · rfl
  · dsimp only
    split
    · rfl
    · rfl

lemma spec_binding_eq_check (licMeta M : RawMeta) (lm : List (String × JVal))
    (hp : parseObj licMeta = some lm) (k r1 r2 : String) :
    (specBindingSatisfied licMeta M k = true) ↔ bindingCheck lm (parseObj M) k r1 r2 = none := by
  unfold specBindingSatisfied licBinding bindingCheck
  rw [hp]
  cases hd : nonEmptyStrField lm k with
  | none => simp [hd]
  | some d =>
    cases hm : parseObj M with
    | none => simp [hd]
    | some am =>
      cases ha : nonEmptyStrField am k with
      | none => simp [hd, ha]
      | some a =>
        by_cases had : a = d
        · simp [hd, ha, had]
        · simp [hd, ha, had, Ne.symm had]

lemma spec_binding_of_no_parse (licMeta M : RawMeta) (k : String)
    (hp : parseObj licMeta = none) : specBindingSatisfied licMeta M k = true := by
  unfold specBindingSatisfied licBinding
  rw [hp]

lemma bindingsAndSuccess_isValid_iff (lic : License) (req : ValidateReq) :
    (bindingsAndSuccess lic req).isValid = true ↔
      (specBindingSatisfied lic.metadata req.metadata "device_id" = true ∧
       specBindingSatisfied lic.metadata req.metadata "user_id" = true) := by
  unfold bindingsAndSuccess
  cases hp : parseObj lic.metadata with
  | none =>
    simp [successResult_isValid, spec_binding_of_no_parse lic.metadata req.metadata _ hp]
  | some lm =>
    dsimp only
    rw [spec_binding_eq_check lic.metadata req.metadata lm hp "device_id" "device_id_required" "device_id_mismatch"]
    rw [spec_binding_eq_check lic.metadata req.metadata lm hp "user_id" "user_id_required" "user_id_mismatch"]
    cases hd : bindingCheck lm (parseObj req.metadata) "device_id" "device_id_required" "device_id_mismatch" with
    | some r => simp
    | none =>
      cases hu : bindingCheck lm (parseObj req.metadata) "user_id" "user_id_required" "user_id_mismatch" with
      | some r => simp
      | none => simp [successResult_isValid]

/-- Claim C1: for every license in the store (looked up by its key), ValidateLicense returns is_valid true exactly when the license is active, unexpired (no expiry set, or now at or before it), of the requested product, and every device or user binding present in its metadata is matched exactly by the agent metadata. -/
theorem C1_validate_isValid_iff (store : List License) (L : License) (P : String) (M : RawMeta) (now : Nat)
    (h : findByKeyStore store L.licenseKey = Except.ok L) :
    isValidB (validateLicense store { licenseKey := L.licenseKey, productName := P, metadata := M } now) = true ↔
      (L.status = .active ∧
       (L.expiresAt = none ∨ ∃ t, L.expiresAt = some t ∧ now ≤ t) ∧
       L.productName = P ∧
       specBindingSatisfied L.metadata M "device_id" = true ∧
       specBindingSatisfied L.metadata M "user_id" = true) := by
  unfold validateLicense
  rw [h]
  unfold validateLicenseWith
  by_cases hp : L.productName = P
  · by_cases hs : L.status = LicenseStatus.active
    · by_cases he : expiredNow L.expiresAt now = true
      · have : ¬ (L.expiresAt = none ∨ ∃ t, L.expiresAt = some t ∧ now ≤ t) := by
          rw [← expiredNow_false_iff]
          simp [he]
        simp [hp, hs, he, isValidB, this]
      · have hf : expiredNow L.expiresAt now = false := by
          simpa using he
        rw [expiredNow_false_iff] at hf
        simp [hp, hs, he, isValidB, bindingsAndSuccess_isValid_iff, hf]
    · simp [hp, hs, isValidB]
  · simp [hp, isValidB, Ne.symm hp]

lemma successResult_reason (lic : License) : (successResult lic).reason = "valid" := by
  unfold successResult
  split
  · rfl
  · dsimp only
    split
    · rfl
    · rfl

lemma specDeviceReason_some (licMeta M : RawMeta) (r : String)
    (h : specDeviceReason licMeta M = some r) :
    r = "device_id_required" ∨ r = "device_id_mismatch" := by
  unfold specDeviceReason at h
  cases hd : licBinding licMeta "device_id" with
  | none => simp [hd] at h
  | some d =>
    cases ha : licBinding M "device_id" with
    | none =>
      simp [hd, ha] at h
      exact Or.inl h.symm
    | some a =>
      by_cases had : a = d
      · simp [hd, ha, had] at h
      · simp [hd, ha, had] at h
        exact Or.inr h.symm

lemma specUserReason_some (licMeta M : RawMeta) (r : String)
    (h : specUserReason licMeta M = some r) :
    r = "user_id_required" ∨ r = "user_id_mismatch" := by
  unfold specUserReason at h
  cases hd : licBinding licMeta "user_id" with
  | none => simp [hd] at h
  | some d =>
    cases ha : licBinding M "user_id" with
    | none =>
      simp [hd, ha] at h
      exact Or.inl h.symm
    | some a =>
      by_cases had : a = d
      · simp [hd, ha, had] at h
      · simp [hd, ha, had] at h
        exact Or.inr h.symm

lemma specDeviceReason_none_iff (licMeta M : RawMeta) :
    specDeviceReason licMeta M = none ↔ specBindingSatisfied licMeta M "device_id" = true := by
  unfold specDeviceReason specBindingSatisfied
  cases hd : licBinding licMeta "device_id" with
  | none => simp
  | some d =>
    cases ha : licBinding M "device_id" with
    | none => simp
    | some a =>
      by_cases had : a = d
      · simp [had]
      · simp [had, Ne.symm had]

lemma specUserReason_none_iff (licMeta M : RawMeta) :
    specUserReason licMeta M = none ↔ specBindingSatisfied licMeta M "user_id" = true := by
  unfold specUserReason specBindingSatisfied
  cases hd : licBinding licMeta "user_id" with
  | none => simp
  | some d =>
    cases ha : licBinding M "user_id" with
    | none => simp
    | some a =>
      by_cases had : a = d
      · simp [had]
      · simp [had, Ne.symm had]

lemma bindingCheck_eq_specD (licMeta M : RawMeta) (lm : List (String × JVal))
    (hp : parseObj licMeta = some lm) :
    bindingCheck lm (parseObj M) "device_id" "device_id_required" "device_id_mismatch" =
      specDeviceReason licMeta M := by
  unfold bindingCheck specDeviceReason licBinding
  rw [hp]
  cases hd : nonEmptyStrField lm "device_id" with
  | none => simp [hd]
  | some d =>
    cases hm : parseObj M with
    | none => simp [hd]
    | some am =>
      cases ha : nonEmptyStrField am "device_id" with
      | none => simp [hd, ha]
      | some a => simp [hd, ha]

lemma bindingCheck_eq_specU (licMeta M : RawMeta) (lm : List (String × JVal))
    (hp : parseObj licMeta = some lm) :
    bindingCheck lm (parseObj M) "user_id" "user_id_required" "user_id_mismatch" =
      specUserReason licMeta M := by
  unfold bindingCheck specUserReason licBinding
  rw [hp]
  cases hd : nonEmptyStrField lm "user_id" with
  | none => simp [hd]
  | some d =>
    cases hm : parseObj M with
    | none => simp [hd]
    | some am =>
      cases ha : nonEmptyStrField am "user_id" with
      | none => simp [hd, ha]
      | some a => simp [hd, ha]

lemma bindingsAndSuccess_reason (lic : License) (req : ValidateReq) :
    (bindingsAndSuccess lic req).reason =
      (firstSome [specDeviceReason lic.metadata req.metadata,
                  specUserReason lic.metadata req.metadata]).getD "valid" := by
  unfold bindingsAndSuccess
  cases hp : parseObj lic.metadata with
  | none =>
    simp [successResult_reason, specDeviceReason, specUserReason, licBinding, hp, firstSome]
  | some lm =>
    dsimp only
    rw [bindingCheck_eq_specD lic.metadata req.metadata lm hp]
    rw [bindingCheck_eq_specU lic.metadata req.metadata lm hp]
    cases hd : specDeviceReason lic.metadata req.metadata with
    | some r => simp [hd, firstSome]
    | none =>
      cases hu : specUserReason lic.metadata req.metadata with
      | some r => simp [hd, hu, firstSome]
      | none => simp [hd, hu, firstSome, successResult_reason]

/-- Claim C5: the reason of every validation call equals the first failing check of the fixed order lookup, product match, status (with expired normalized to the literal expired), expiry, device binding, user binding, with reason valid on the success path; in particular a product mismatch is reported even when the status is also non-active. -/
theorem C5_reason_evaluation_order (lookup : Except DBErr License) (key P : String) (M : RawMeta) (now : Nat) :
    reasonOf (validateLicenseWith lookup { licenseKey := key, productName := P, metadata := M } now) =
      specReasonC5 lookup P M now := by
  cases lookup with
  | error e => cases e <;> rfl
  | ok L =>
    unfold validateLicenseWith specReasonC5 specChecksReason
    by_cases hp : L.productName = P
    · by_cases hs : L.status = LicenseStatus.active
      · by_cases he : expiredNow L.expiresAt now = true
        · cases het : L.expiresAt with
          | none => rw [het] at he; simp [expiredNow] at he
          | some t =>
            have hlt : t < now := by
              rw [het] at he
              simpa [expiredNow] using he
            simp [hp, hs, he, het, hlt, expiredNow, reasonOf, firstSome]
        · have hf : expiredNow L.expiresAt now = false := by simpa using he
          have hspec : (match L.expiresAt with
              | some t => if t < now then some "expired" else none
              | none => (none : Option String)) = none := by
            cases het : L.expiresAt with
            | none => rfl
            | some t =>
              rw [het] at hf
              simp [expiredNow] at hf
              simp [Nat.not_lt.mpr hf]
          simp [hp, hs, he, reasonOf, hspec, firstSome, bindingsAndSuccess_reason]
      · simp [hp, hs, reasonOf, firstSome, specStatusReason]
    · simp [hp, reasonOf, firstSome, Ne.symm hp]

lemma bindingsAndSuccess_invalid_reason (lic : License) (req : ValidateReq)
    (h : (bindingsAndSuccess lic req).isValid = false) :
    (bindingsAndSuccess lic req).reason ∈
      ["device_id_required", "device_id_mismatch", "user_id_required", "user_id_mismatch"] := by
  have hr := bindingsAndSuccess_reason lic req
  cases hd : specDeviceReason lic.metadata req.metadata with
  | some r =>
    rw [hd] at hr
    simp [firstSome] at hr
    rw [hr]
    rcases specDeviceReason_some _ _ _ hd with h1 | h1 <;> simp [h1]
  | none =>
    cases hu : specUserReason lic.metadata req.metadata with
    | some r =>
      rw [hd, hu] at hr
      simp [firstSome] at hr
      rw [hr]
      rcases specUserReason_some _ _ _ hu with h1 | h1 <;> simp [h1]
    | none =>
      have hv := (bindingsAndSuccess_isValid_iff lic req).mpr
        ⟨(specDeviceReason_none_iff _ _).mp hd, (specUserReason_none_iff _ _).mp hu⟩
      rw [hv] at h
      cases h

lemma validateLicenseWith_ok_exists (L : License) (req : ValidateReq) (now : Nat) :
    ∃ r, validateLicenseWith (Except.ok L) req now = Except.ok r := by
  unfold validateLicenseWith
  dsimp only
  split
  · exact ⟨_, rfl⟩
  · split
    · exact ⟨_, rfl⟩
    · split
      · exact ⟨_, rfl⟩
      · exact ⟨_, rfl⟩

/-- Claim C6: a validation call propagates an error exactly when the lookup fails with an infrastructure error; a not-found key yields a successful result with reason not_found; and every successful result with is_valid false carries one of the business reasons. -/
theorem C6_error_vs_business_result (lookup : Except DBErr License) (req : ValidateReq) (now : Nat) :
    (isErrB (validateLicenseWith lookup req now) = true ↔ lookup = Except.error DBErr.infra) ∧
    (validateLicenseWith (Except.error DBErr.notFound) req now =
      Except.ok { isValid := false, reason := "not_found", license := none, responseData := none }) ∧
    (∀ r, validateLicenseWith lookup req now = Except.ok r → r.isValid = false →
      r.reason ∈ businessReasons) := by
  refine ⟨?_, rfl, ?_⟩
  · cases lookup with
    | error e => cases e <;> simp [validateLicenseWith, isErrB]
    | ok L =>
      obtain ⟨r, hr⟩ := validateLicenseWith_ok_exists L req now
      simp [hr, isErrB]
  · intro r hr hv
    cases lookup with
    | error e =>
      cases e with
      | notFound =>
        simp [validateLicenseWith] at hr
        rw [← hr]
        simp [businessReasons]
      | infra => simp [validateLicenseWith] at hr
    | ok L =>
      unfold validateLicenseWith at hr
      dsimp only at hr
      split at hr
      · rw [Except.ok.injEq] at hr
        rw [← hr]
        simp [businessReasons]
      · split at hr
        · rw [Except.ok.injEq] at hr
          rw [← hr]
          rename_i hprod hstat
          cases hst : L.status
          case active => exact absurd hst hstat
          all_goals simp [hst, businessReasons, statusString]
        · split at hr
          · rw [Except.ok.injEq] at hr
            rw [← hr]
            simp [businessReasons]
          · rw [Except.ok.injEq] at hr
            rw [← hr] at hv ⊢
            have hmem := bindingsAndSuccess_invalid_reason L req hv
            simp at hmem
            simp [businessReasons]
            tauto

/-- Claim C10: when the stored metadata carries no device and no user binding for the validator (in particular when it is absent, unparsable, or its entries are not non-empty strings), an active, unexpired, product-matching license validates with is_valid true and reason valid, whatever the agent metadata. -/
theorem C10_unparseable_metadata_skips_bindings (store : List License) (L : License) (P : String) (M : RawMeta) (now : Nat)
    (hfind : findByKeyStore store L.licenseKey = Except.ok L)
    (hdev : licBinding L.metadata "device_id" = none)
    (husr : licBinding L.metadata "user_id" = none)
    (hst : L.status = LicenseStatus.active)
    (hexp : expiredNow L.expiresAt now = false)
    (hp : L.productName = P) :
    isValidB (validateLicense store { licenseKey := L.licenseKey, productName := P, metadata := M } now) = true ∧
    reasonOf (validateLicense store { licenseKey := L.licenseKey, productName := P, metadata := M } now) = some "valid" := by
  unfold validateLicense
  rw [hfind]
  unfold validateLicenseWith
  have hsbd : specBindingSatisfied L.metadata M "device_id" = true := by
    unfold specBindingSatisfied
    rw [hdev]
  have hsbu : specBindingSatisfied L.metadata M "user_id" = true := by
    unfold specBindingSatisfied
    rw [husr]
  have hdr : specDeviceReason L.metadata M = none := by
    unfold specDeviceReason
    rw [hdev]
  have hur : specUserReason L.metadata M = none := by
    unfold specUserReason
    rw [husr]
  constructor
  · have hbv := (bindingsAndSuccess_isValid_iff L { licenseKey := L.licenseKey, productName := P, metadata := M }).mpr ⟨hsbd, hsbu⟩
    simp [hp, hst, hexp, isValidB, hbv]
  · have hbr := bindingsAndSuccess_reason L { licenseKey := L.licenseKey, productName := P, metadata := M }
    rw [hdr, hur] at hbr
    simp [firstSome] at hbr
    simp [hp, hst, hexp, reasonOf, hbr]

lemma authenticate_success_iff (H : String → String) (store : List APIKey) (header : String) :
    (∃ i, authenticate H store header = AuthOutcome.success i) ↔
      (header ≠ "" ∧ ∃ p s, goSplitN header '_' 3 = ["lm", p, s] ∧
        ∃ k, findByPfx store p = some k ∧ H header = k.keyHash) := by
  by_cases hh : header = ""
  · simp [authenticate, hh]
  · unfold authenticate
    rw [if_neg hh]
    rcases hsp : goSplitN header '_' 3 with _ | ⟨t, _ | ⟨p, _ | ⟨s, _ | ⟨x, rest⟩⟩⟩⟩
    · simp [hh, hsp]
    · simp [hh, hsp]
    · simp [hh, hsp]
    · by_cases ht : t = "lm"
      · subst ht
        cases hf : findByPfx store p with
        | none => simp [hh, hsp, hf]
        | some k =>
          by_cases hha : H header = k.keyHash
          · simp [hh, hsp, hf, hha]
          · simp [hh, hsp, hf, hha]
      · simp [hh, hsp, ht, Ne.symm ht]
    · simp [hh, hsp]

/-- Claim C3: authentication succeeds exactly when the header is non-empty, splits into the scheme tag lm plus a lookup token plus a secret, an enabled key with that token is stored, and the digest of the full header equals its stored hash; since only enabled keys are found, a disabled key never authenticates even when its hash matches. -/
theorem C3_authenticate_success_iff (H : String → String) (store : List APIKey) (header : String)
    (huniq : ∀ k1, k1 ∈ store → ∀ k2, k2 ∈ store → k1.pfx = k2.pfx → k1 = k2) :
    (∃ i, authenticate H store header = AuthOutcome.success i) ↔
      (header ≠ "" ∧ ∃ p s, goSplitN header '_' 3 = ["lm", p, s] ∧
        ∃ k, k ∈ store ∧ k.pfx = p ∧ k.isEnabled = true ∧ H header = k.keyHash) := by
  rw [authenticate_success_iff]
  constructor
  · rintro ⟨hh, p, s, hsp, k, hf, hhash⟩
    unfold findByPfx at hf
    have hmem := List.mem_of_find?_eq_some hf
    have hprop := List.find?_some hf
    simp at hprop
    exact ⟨hh, p, s, hsp, k, hmem, hprop.1, hprop.2, hhash⟩
  · rintro ⟨hh, p, s, hsp, k, hmem, hpfx, hen, hhash⟩
    refine ⟨hh, p, s, hsp, ?_⟩
    have hsome : (store.find? (fun x => x.pfx == p && x.isEnabled)).isSome := by
      rw [List.find?_isSome]
      exact ⟨k, hmem, by simp [hpfx, hen]⟩
    obtain ⟨k2, hk2⟩ := Option.isSome_iff_exists.mp hsome
    have hk2mem := List.mem_of_find?_eq_some hk2
    have hk2p := List.find?_some hk2
    simp at hk2p
    have hkk : k2 = k := huniq k2 hk2mem k hmem (by rw [hk2p.1, hpfx])
    refine ⟨k2, ?_, ?_⟩
    · unfold findByPfx
      exact hk2
    · rw [hkk, ← hhash]

/-- Claim C4: a well-formed credential whose lookup token resolves to an enabled key but whose digest mismatches, and a well-formed credential whose token resolves to nothing (unknown or disabled), produce identical externally observable authentication outcomes. -/
theorem C4_failure_class_collapse (H : String → String) (store : List APIKey) (h1 h2 : String)
    (p1 s1 p2 s2 : String) (k : APIKey)
    (e1 : goSplitN h1 '_' 3 = ["lm", p1, s1])
    (f1 : findByPfx store p1 = some k)
    (m1 : H h1 ≠ k.keyHash)
    (e2 : goSplitN h2 '_' 3 = ["lm", p2, s2])
    (f2 : findByPfx store p2 = none) :
    authenticate H store h1 = authenticate H store h2 := by
  have hne1 : h1 ≠ "" := by
    intro h
    rw [h] at e1
    have : goSplitN "" '_' 3 = [""] := rfl
    rw [this] at e1
    simp at e1
  have hne2 : h2 ≠ "" := by
    intro h
    rw [h] at e2
    have : goSplitN "" '_' 3 = [""] := rfl
    rw [this] at e2
    simp at e2
  unfold authenticate
  rw [if_neg hne1, if_neg hne2, e1, e2]
  simp [f1, f2, m1]

lemma updExpired_id (id : Nat) (st : LicenseStatus) (l : License) :
    ((if l.id == id then { l with status := st } else l) : License).id = l.id := by
  split
  · rfl
  · rfl

lemma any_id_map_upd (store : List License) (id : Nat) (st : LicenseStatus) :
    (store.map (fun l => if l.id == id then { l with status := st } else l)).any
        (fun l => l.id == id) =
      store.any (fun l => l.id == id) := by
  rw [List.any_map]
  congr 1
  funext l
  simp only [Function.comp]
  rw [updExpired_id]

lemma mem_map_upd_status (store : List License) (id : Nat) :
    ∀ l, l ∈ store.map (fun l => if l.id == id then { l with status := LicenseStatus.expired } else l) →
      l.id = id → l.status = LicenseStatus.expired := by
  intro l hl hid
  obtain ⟨l0, hl0, hfeq⟩ := List.mem_map.mp hl
  by_cases h0 : l0.id = id
  · rw [← hfeq]
    simp [h0]
  · rw [← hfeq, updExpired_id] at hid
    exact absurd hid h0

/-- Claim C9: for an id present in the store, two successive UpdateStatus invocations to expired both return without error and leave that row with status expired. -/
theorem C9_update_status_idempotent (store : List License) (id : Nat)
    (h : ∃ l, l ∈ store ∧ l.id = id) :
    ∃ s1 s2, updateStatusE store id LicenseStatus.expired = Except.ok s1 ∧
      updateStatusE s1 id LicenseStatus.expired = Except.ok s2 ∧
      ∀ l, l ∈ s2 → l.id = id → l.status = LicenseStatus.expired := by
  rcases h with ⟨l, hm, hid⟩
  have hany : store.any (fun x => x.id == id) = true :=
    List.any_eq_true.mpr ⟨l, hm, by simp [hid]⟩
  refine ⟨store.map (fun x => if x.id == id then { x with status := LicenseStatus.expired } else x),
          (store.map (fun x => if x.id == id then { x with status := LicenseStatus.expired } else x)).map
            (fun x => if x.id == id then { x with status := LicenseStatus.expired } else x),
          ?_, ?_, ?_⟩
  · unfold updateStatusE
    rw [if_pos hany]
  · unfold updateStatusE
    rw [if_pos (by rw [any_id_map_upd]; exact hany)]
  · exact mem_map_upd_status _ id

lemma countActive_upd_le (store : List License) (id : Nat) :
    ((store.map (fun l => if l.id == id then { l with status := LicenseStatus.expired } else l)).filter
        activeB).length ≤ (store.filter activeB).length := by
  induction store with
  | nil => simp
  | cons a as ih =>
    simp only [List.map_cons, List.filter_cons]
    by_cases ha : (a.id == id) = true
    · have hu : activeB (if a.id == id then { a with status := LicenseStatus.expired } else a) = false := by
        rw [if_pos ha]
        rfl
      by_cases hact : activeB a = true
      · simp only [hu, hact, Bool.false_eq_true, if_false, if_true, List.length_cons]
        exact Nat.le_succ_of_le ih
      · simp only [hu, Bool.false_eq_true, if_false, hact]
        exact ih
    · have hu : (if a.id == id then { a with status := LicenseStatus.expired } else a) = a := if_neg ha
      rw [hu]
      by_cases hact : activeB a = true
      · simp only [hact, if_true, List.length_cons]
        exact Nat.succ_le_succ ih
      · simp only [hact, Bool.false_eq_true, if_false]
        exact ih

lemma expireBatch_filter_le (page : List License) (store : List License) (now count : Nat) :
    ((expireBatch store page now count).1.filter activeB).length ≤
      (store.filter activeB).length := by
  induction page generalizing store count with
  | nil => simp [expireBatch]
  | cons lic rest ih =>
    unfold expireBatch
    by_cases he : expiredNow lic.expiresAt now = true
    · rw [if_pos he]
      unfold updateStatusE
      by_cases hany : store.any (fun l => l.id == lic.id) = true
      · rw [if_pos hany]
        dsimp only
        exact le_trans (ih _ _) (countActive_upd_le store lic.id)
      · rw [if_neg hany]
        dsimp only
        exact ih _ _
    · rw [if_neg he]
      exact ih _ _

lemma insertLE_length (le : License → License → Bool) (x : License) (l : List License) :
    (insertLE le x l).length = l.length + 1 := by
  induction l with
  | nil => rfl
  | cons y ys ih =>
    unfold insertLE
    split
    · rfl
    · simp [ih]

lemma isortLE_length (le : License → License → Bool) (l : List License) :
    (isortLE le l).length = l.length := by
  induction l with
  | nil => rfl
  | cons x xs ih =>
    unfold isortLE
    rw [insertLE_length, ih]
    rfl

lemma sortRows_length (o : OrderSpec) (rows : List License) :
    (sortRows o rows).length = rows.length := isortLE_length _ _

lemma matches_startup (off : Nat) (l : License) :
    matchesParams (startupParams off) l = activeB l := by
  simp [matchesParams, startupParams, activeB]

lemma matches_periodic (off : Nat) (l : License) :
    matchesParams (periodicParams off) l = activeB l := by
  simp [matchesParams, periodicParams, activeB]

lemma filter_startup (store : List License) (off : Nat) :
    store.filter (matchesParams (startupParams off)) = store.filter activeB :=
  List.filter_congr (fun a _ => matches_startup off a)

lemma filter_periodic (store : List License) (off : Nat) :
    store.filter (matchesParams (periodicParams off)) = store.filter activeB :=
  List.filter_congr (fun a _ => matches_periodic off a)

lemma listLicenses_eq (store : List License) (p : ListParams) :
    listLicenses store p =
      (((sortRows ((buildOrderBy p.sortBy p.sortOrder).getD fallbackOrder)
          (store.filter (matchesParams p))).drop p.offset).take p.limit,
       (store.filter (matchesParams p)).length) := by
  unfold listLicenses
  dsimp only
  by_cases h : (store.filter (matchesParams p)).length = 0
  · rw [if_pos h]
    have hnil : store.filter (matchesParams p) = [] := List.length_eq_zero.mp h
    rw [hnil]
    simp [sortRows, isortLE]
  · rw [if_neg h]

lemma ord_startup : (buildOrderBy "id" "ASC").getD fallbackOrder = idAscOrder := by decide

lemma expiresAsc : (buildOrderBy "expires_at" "ASC").getD fallbackOrder =
    { col := SortCol.expiresAt, desc := false, nullsFirst := true } := by decide

lemma listLicenses_startup (store : List License) (off : Nat) :
    listLicenses store (startupParams off) =
      (((sortRows idAscOrder (store.filter activeB)).drop off).take 500,
       (store.filter activeB).length) := by
  rw [listLicenses_eq, filter_startup]
  simp only [startupParams, ord_startup]

lemma listLicenses_periodic (store : List License) (off : Nat) :
    listLicenses store (periodicParams off) =
      (((sortRows { col := SortCol.expiresAt, desc := false, nullsFirst := true }
          (store.filter activeB)).drop off).take 1000,
       (store.filter activeB).length) := by
  rw [listLicenses_eq, filter_periodic]
  simp only [periodicParams, expiresAsc]

theorem startupSweep_trace_of_single_page (store : List License) (now : Nat)
    (h : (store.filter activeB).length ≤ 500) :
    (checkAndExpireLicenses store now).trace = sortRows idAscOrder (store.filter activeB) := by
  unfold checkAndExpireLicenses
  simp only [startupGo, listLicenses_startup, List.drop_zero]
  have hsl : (sortRows idAscOrder (store.filter activeB)).length ≤ 500 := by
    rw [sortRows_length]
    exact h
  rw [List.take_of_length_le hsl]
  by_cases hF : store.filter activeB = []
  · simp [hF, sortRows, isortLE]
  · have hne : sortRows idAscOrder (store.filter activeB) ≠ [] := by
      intro hx
      apply hF
      have hl := sortRows_length idAscOrder (store.filter activeB)
      rw [hx] at hl
      exact List.length_eq_zero.mp hl.symm
    have hEmpty : ¬((sortRows idAscOrder (store.filter activeB)).isEmpty = true) := by
      rw [List.isEmpty_iff]
      exact hne
    rw [if_neg hEmpty]
    by_cases hlen : (sortRows idAscOrder (store.filter activeB)).length < 500
    · rw [if_pos hlen]
      simp
    · rw [if_neg hlen]
      have hstore : 500 ≤ store.length := by
        have h1 : (sortRows idAscOrder (store.filter activeB)).length = 500 :=
          le_antisymm hsl (Nat.not_lt.mp hlen)
        have h2 := sortRows_length idAscOrder (store.filter activeB)
        have h3 := List.length_filter_le activeB store
        omega
      obtain ⟨m, hm⟩ : ∃ m, store.length = m + 1 := ⟨store.length - 1, by omega⟩
      rw [hm]
      simp only [startupGo, listLicenses_startup]
      have hF2 : ((expireBatch store (sortRows idAscOrder (store.filter activeB)) now 0).1.filter
          activeB).length ≤ 500 :=
        le_trans (expireBatch_filter_le _ _ _ _) h
      have hdrop : (sortRows idAscOrder
          ((expireBatch store (sortRows idAscOrder (store.filter activeB)) now 0).1.filter
            activeB)).length ≤ 0 + 500 := by
        rw [sortRows_length]
        simpa using hF2
      rw [List.drop_eq_nil_of_le hdrop]
      simp

theorem periodicSweep_trace_of_single_page (store : List License) (now : Nat)
    (h : (store.filter activeB).length ≤ 1000) :
    (processExpireTask store now).trace =
      sortRows { col := SortCol.expiresAt, desc := false, nullsFirst := true }
        (store.filter activeB) := by
  unfold processExpireTask
  simp only [periodicGo, listLicenses_periodic, List.drop_zero]
  have hsl : (sortRows { col := SortCol.expiresAt, desc := false, nullsFirst := true }
      (store.filter activeB)).length ≤ 1000 := by
    rw [sortRows_length]
    exact h
  rw [List.take_of_length_le hsl]
  by_cases hF : store.filter activeB = []
  · simp [hF, sortRows, isortLE]
  · have hne : sortRows { col := SortCol.expiresAt, desc := false, nullsFirst := true }
        (store.filter activeB) ≠ [] := by
      intro hx
      apply hF
      have hl := sortRows_length { col := SortCol.expiresAt, desc := false, nullsFirst := true }
        (store.filter activeB)
      rw [hx] at hl
      exact List.length_eq_zero.mp hl.symm
    have hEmpty : ¬((sortRows { col := SortCol.expiresAt, desc := false, nullsFirst := true }
        (store.filter activeB)).isEmpty = true) := by
      rw [List.isEmpty_iff]
      exact hne
    rw [if_neg hEmpty]
    by_cases hlen : (sortRows { col := SortCol.expiresAt, desc := false, nullsFirst := true }
        (store.filter activeB)).length < 1000
    · rw [if_pos hlen]
      simp
    · rw [if_neg hlen]
      have h1000 : (store.filter activeB).length = 1000 := by
        have h1 := le_antisymm hsl (Nat.not_lt.mp hlen)
        have h2 := sortRows_length { col := SortCol.expiresAt, desc := false, nullsFirst := true }
          (store.filter activeB)
        omega
      have hbreak : ¬(0 + 1000 > (store.filter activeB).length ∧ (store.filter activeB).length > 0) := by
        omega
      rw [if_neg hbreak]
      have hstore : 1000 ≤ store.length := by
        have h3 := List.length_filter_le activeB store
        omega
      obtain ⟨m, hm⟩ : ∃ m, store.length = m + 1 := ⟨store.length - 1, by omega⟩
      rw [hm]
      simp only [periodicGo, listLicenses_periodic]
      have hF2 : ((expireBatch store
          (sortRows { col := SortCol.expiresAt, desc := false, nullsFirst := true }
            (store.filter activeB)) now 0).1.filter activeB).length ≤ 1000 :=
        le_trans (expireBatch_filter_le _ _ _ _) h
      have hdrop : (sortRows { col := SortCol.expiresAt, desc := false, nullsFirst := true }
          ((expireBatch store
            (sortRows { col := SortCol.expiresAt, desc := false, nullsFirst := true }
              (store.filter activeB)) now 0).1.filter activeB)).length ≤ 0 + 1000 := by
        rw [sortRows_length]
        simpa using hF2
      rw [List.drop_eq_nil_of_le hdrop]
      simp

set_option maxRecDepth 100000

/-- Claim C2 fails on the code: one full startup reconciliation pass over
the 501-row store storeC2 (every row active; rows 0 and 500 overdue) leaves
row 500 active with its expiry in the past, although no store operation
failed and one update succeeded.  The pass advances its offset by the page
size while the rows it expired have left the status = active filter, so the
501st row is never scanned. -/
theorem C2_sweep_leaves_overdue_active :
    ((checkAndExpireLicenses storeC2 1).store.filter
        (fun l => activeB l && expiredNow l.expiresAt 1)).map (fun l => l.id) = [500] ∧
    (checkAndExpireLicenses storeC2 1).updated = 1 := by
  decide

/-- Claim C7, as stated, is false at storeC7: the startup sweep sorts by
id ascending, so it scans licA (id 1, expires at 10) before licB (id 2,
expires at 5), which is not the expires_at-ascending order. -/
theorem C7_counterexample_startup_order :
    (checkAndExpireLicenses storeC7 0).trace = [licA, licB] ∧
    sortRows { col := SortCol.expiresAt, desc := false, nullsFirst := true }
        (storeC7.filter activeB) = [licB, licA] ∧
    (checkAndExpireLicenses storeC7 0).trace ≠
      sortRows { col := SortCol.expiresAt, desc := false, nullsFirst := true }
        (storeC7.filter activeB) := by
  decide

/-- Claim C7 amended: both drivers page through the status = active rows
with a fixed page size, but only the periodic sweep orders them ascending
by expires_at (NULLS FIRST); the startup sweep sorts by id ascending, so
an interrupted startup sweep has not necessarily processed the
earliest-expiring records first.  Stated for active populations that fit
in one page. -/
theorem C7_sweep_scan_orders (store : List License) (now : Nat) :
    ((store.filter activeB).length ≤ 500 →
      (checkAndExpireLicenses store now).trace =
        sortRows idAscOrder (store.filter activeB)) ∧
    ((store.filter activeB).length ≤ 1000 →
      (processExpireTask store now).trace =
        sortRows { col := SortCol.expiresAt, desc := false, nullsFirst := true }
          (store.filter activeB)) :=
  ⟨startupSweep_trace_of_single_page store now, periodicSweep_trace_of_single_page store now⟩

/-- Witness for the amended claim C7 at the concrete store storeC7. -/
theorem C7_witness :
    (checkAndExpireLicenses storeC7 0).trace = sortRows idAscOrder (storeC7.filter activeB) ∧
    (processExpireTask storeC7 0).trace =
      sortRows { col := SortCol.expiresAt, desc := false, nullsFirst := true }
        (storeC7.filter activeB) :=
  ⟨(C7_sweep_scan_orders storeC7 0).1 (by decide), (C7_sweep_scan_orders storeC7 0).2 (by decide)⟩

/-- Claim C8 fails on the code: creating an API key whose lookup token
collides with a stored one is rejected (nothing is overwritten), but the
error is the bare constraint-violation message that wraps no sentinel, so
errors.Is against the Conflict kind is false and the error-handler
middleware cannot distinguish it from any other write error. -/
theorem C8_duplicate_pfx_error_not_conflict :
    apiKeyCreate [storedKey] collidingKey =
      Except.error { msg := "api key constraint violation (api_keys_prefix_key)", wrapped := none } ∧
    errorsIs { msg := "api key constraint violation (api_keys_prefix_key)", wrapped := none }
      Sentinel.conflict = false :=
  ⟨rfl, rfl⟩

/-- Witness for claim C1 at a perpetual, unbound, active license. -/
theorem C1_witness :
    isValidB (validateLicense [L1]
      { licenseKey := "K1", productName := "Foo", metadata := RawMeta.absent } 5) = true :=
  (C1_validate_isValid_iff [L1] L1 "Foo" RawMeta.absent 5 rfl).mpr
    ⟨rfl, Or.inl rfl, rfl, rfl, rfl⟩

/-- Witness for claim C3: a well-formed credential for an enabled stored
key with a matching digest authenticates. -/
theorem C3_witness :
    ∃ i, authenticate (fun _ => "HH") [K3key] "lm_ab_cd" = AuthOutcome.success i :=
  (C3_authenticate_success_iff (fun _ => "HH") [K3key] "lm_ab_cd"
      (by
        intro k1 h1 k2 h2 _
        rw [List.mem_singleton] at h1 h2
        rw [h1, h2])).mpr
    ⟨by decide, "ab", "cd", rfl, K3key, List.mem_singleton.mpr rfl, rfl, rfl, rfl⟩

/-- Witness for claim C4: a wrong secret for the stored token cd and a
wholly unknown token zz yield the same outcome. -/
theorem C4_witness :
    authenticate (fun _ => "XX") [K4key] "lm_cd_s1" =
      authenticate (fun _ => "XX") [K4key] "lm_zz_s2" :=
  C4_failure_class_collapse (fun _ => "XX") [K4key] "lm_cd_s1" "lm_zz_s2" "cd" "s1" "zz" "s2" K4key
    rfl rfl (by decide) rfl rfl

/-- Witness for claim C6 at the not-found lookup outcome. -/
theorem C6_witness :
    validateLicenseWith (Except.error DBErr.notFound)
        { licenseKey := "K1", productName := "Foo", metadata := RawMeta.absent } 0 =
      Except.ok { isValid := false, reason := "not_found", license := none, responseData := none } :=
  (C6_error_vs_business_result (Except.error DBErr.notFound)
      { licenseKey := "K1", productName := "Foo", metadata := RawMeta.absent } 0).2.1

/-- Witness for claim C9 at a single-row store. -/
theorem C9_witness :
    ∃ s1 s2, updateStatusE [L9] 9 LicenseStatus.expired = Except.ok s1 ∧
      updateStatusE s1 9 LicenseStatus.expired = Except.ok s2 ∧
      ∀ l, l ∈ s2 → l.id = 9 → l.status = LicenseStatus.expired :=
  C9_update_status_idempotent [L9] 9 ⟨L9, List.mem_singleton.mpr rfl, rfl⟩

/-- Witness for claim C10 at a license whose metadata blob does not parse
and an agent that supplies no metadata at all. -/
theorem C10_witness :
    isValidB (validateLicense [L10]
      { licenseKey := "K10", productName := "Foo", metadata := RawMeta.absent } 3) = true ∧
    reasonOf (validateLicense [L10]
      { licenseKey := "K10", productName := "Foo", metadata := RawMeta.absent } 3) = some "valid" :=
  C10_unparseable_metadata_skips_bindings [L10] L10 "Foo" RawMeta.absent 3 rfl rfl rfl rfl rfl rfl
